import Mathlib

/-!
Verification of the pmem::obj pool handle layer (include/libpmemobj++/pool.hpp):
the pool handle lifecycle (open/create/check/close), the attached User-Data
Record, the durability primitives, defragmentation, and the control-protocol
entry points.

The underlying persistent-memory engine (libpmemobj's pmemobj_* calls) is an
external collaborator: its calls are modelled by explicit outcome parameters
or by small state-transition functions that follow the engine contract the
source documents. Pool capabilities are natural numbers; C++ exceptions are
an explicit error type.
-/

namespace PmemObj

/-- Linux errno value EINVAL, as tested in pool_base::check_pool. -/
def EINVAL : Nat := 22

/-- Linux errno value EFBIG, as tested in pool_base::check_pool. -/
def EFBIG : Nat := 27

/-- Linux errno value ENOENT, as tested in pool_base::check_pool. -/
def ENOENT : Nat := 2

/-- Linux errno value EEXIST, as tested in pool_base::check_pool. -/
def EEXIST : Nat := 17

/-- Modelled from the spec: detail::pool_data (detail/pool_data.hpp is not
under src/). The Pool User-Data Record: an initialized flag and the ordered
collection of registered cleanup actions; cleanup() executes them in
registration order. Cleanup actions are identified by numeric tokens. -/
structure PoolData where
  initialized : Bool
  to_clean : List Nat
deriving DecidableEq, Repr

/-- pool_base: wraps the nullable pool capability pointer `pop`
(pool.hpp line 448). A default-constructed handle has a null pointer. -/
structure Handle where
  pop : Option Nat
deriving DecidableEq, Repr

/-- The engine-side association established by pmemobj_set_user_data: which
capabilities are live and which User-Data Record each one carries. -/
structure Engine where
  userData : List (Nat × PoolData)
  live : List Nat
deriving DecidableEq, Repr

/-- pmemobj_get_user_data: the record attached to a capability, if any. -/
def Engine.getUserData (e : Engine) (cap : Nat) : Option PoolData :=
  (e.userData.find? (fun p => p.1 == cap)).map Prod.snd

/-- The observable failure outcomes of a pool_base call: the C++ exception
kinds of pexceptions.hpp (modelled from the spec, that header not being under
src/), plus `fault` for outcomes that are not C++ exceptions at all — the
engine dereferencing a null capability, or a stale-handle record lookup,
which are undefined behaviour in the source. -/
inductive PmemError where
  | logic_error (msg : String)
  | pool_invalid_argument (msg : String) (errmsg : String)
  | pool_error (msg : String) (errmsg : Option String)
  | defrag_error (relocated : Nat) (total : Nat) (msg : String)
  | fault
deriving DecidableEq, Repr

/-- The observable steps pool_base::close performs, recorded in execution
order. -/
inductive Event where
  | run_cleanup (action : Nat)
  | delete_user_data
  | pmemobj_close (cap : Nat)
deriving DecidableEq, Repr

/-- pool_base::close (pool.hpp 251-267): a handle whose pointer is null
raises std::logic_error "Pool already closed" and changes nothing; otherwise
the attached User-Data Record is fetched, its cleanup actions run (only when
the initialized flag is set), the record is deleted, the capability is
closed, and the handle's pointer is cleared. The returned event list records
the execution order; the returned engine state reflects the releases. -/
def pool_base.close (e : Engine) (h : Handle) :
    Except PmemError (Engine × Handle × List Event) :=
  match h.pop with
  | none => .error (.logic_error "Pool already closed")
  | some cap =>
    match e.getUserData cap with
    | none => .error .fault
    | some user_data =>
      let cleanup_events :=
        if user_data.initialized then user_data.to_clean.map Event.run_cleanup
        else []
      let e' : Engine :=
        ⟨e.userData.filter (fun p => p.1 != cap),
         e.live.filter (fun c => c != cap)⟩
      .ok (e', ⟨none⟩,
        cleanup_events ++ [Event.delete_user_data, Event.pmemobj_close cap])

/-- The outcome of the engine call pmemobj_open / pmemobj_create: a null pool
pointer together with the errno and diagnostic message the engine left
behind, or a fresh capability. -/
inductive EngineOpenResult where
  | null (errno : Nat) (errmsg : String)
  | success (cap : Nat)
deriving DecidableEq, Repr

/-- pool_base::check_pool (pool.hpp 430-445): classify a failed engine
open/create by errno into pool_invalid_argument (EINVAL, EFBIG, ENOENT,
EEXIST) or pool_error, both carrying the engine diagnostic message
(with_pmemobj_errormsg). -/
def pool_base.check_pool (res : EngineOpenResult) (mode : String) :
    Except PmemError Unit :=
  match res with
  | .null en errmsg =>
    if en == EINVAL || en == EFBIG || en == ENOENT || en == EEXIST then
      .error (.pool_invalid_argument ("Failed " ++ mode ++ " pool") errmsg)
    else
      .error (.pool_error ("Failed " ++ mode ++ " pool") (some errmsg))
  | .success _ => .ok ()

/-- Modelled from the spec: a freshly allocated User-Data Record
(`new detail::pool_data`): the initialized flag is not yet set and no cleanup
actions are registered. -/
def freshPoolData : PoolData := ⟨false, []⟩

/-- pool_base::open (pool.hpp 104-117). path and layout are consumed by the
engine call pmemobj_open, whose outcome is the parameter `res`; on success a
fresh User-Data Record is associated with the returned capability
(pmemobj_set_user_data) and a bound handle is returned. (`open` is a Lean
keyword, hence the name open_pool.) -/
def pool_base.open_pool (e : Engine) (res : EngineOpenResult) :
    Except PmemError (Engine × Handle) :=
  match pool_base.check_pool res "opening", res with
  | .error err, _ => .error err
  | .ok _, .null _ _ => .error .fault
  | .ok _, .success cap =>
    .ok (⟨(cap, freshPoolData) :: e.userData, cap :: e.live⟩, ⟨some cap⟩)

/-- pool_base::create (pool.hpp 135-151). path, layout, size and mode are
consumed by the engine call pmemobj_create, whose outcome is the parameter
`res`; otherwise identical to open except for the diagnostic mode string
"creating". -/
def pool_base.create (e : Engine) (res : EngineOpenResult) :
    Except PmemError (Engine × Handle) :=
  match pool_base.check_pool res "creating", res with
  | .error err, _ => .error err
  | .ok _, .null _ _ => .error .fault
  | .ok _, .success cap =>
    .ok (⟨(cap, freshPoolData) :: e.userData, cap :: e.live⟩, ⟨some cap⟩)

/-- Byte-addressable pool memory as the durability primitives see it:
volatile content, the ranges scheduled for write-back by flush and not yet
drained, and the durable-media image. Modelled from the spec: pmemobj_flush,
pmemobj_drain, pmemobj_persist, pmemobj_memcpy_persist and
pmemobj_memset_persist are the external engine's primitives, with the
ordering contract the spec states for them. -/
structure Mem where
  content : List Nat
  pending : List (Nat × Nat)
  durable : List Nat
deriving DecidableEq, Repr

/-- The len bytes of l starting at addr. -/
def readRange (l : List Nat) (addr len : Nat) : List Nat :=
  (l.drop addr).take len

/-- Overwrite l with the given bytes starting at addr (writes past the end
are dropped, as List.set does). -/
def writeRange (l : List Nat) (addr : Nat) (bytes : List Nat) : List Nat :=
  match bytes with
  | [] => l
  | b :: bs => writeRange (l.set addr b) (addr + 1) bs

/-- Write one scheduled range back from the volatile content to the durable
image. -/
def applyRange (content durable : List Nat) (r : Nat × Nat) : List Nat :=
  writeRange durable r.1 (readRange content r.1 r.2)

/-- pmemobj_flush: schedule the addressed bytes for write-back to durable
media, without waiting for completion. -/
def pmemobj_flush (m : Mem) (addr len : Nat) : Mem :=
  { m with pending := m.pending ++ [(addr, len)] }

/-- pmemobj_drain: block until every previously scheduled range is durable. -/
def pmemobj_drain (m : Mem) : Mem :=
  { content := m.content, pending := [],
    durable := m.pending.foldl (applyRange m.content) m.durable }

/-- pmemobj_persist: flush of the range composed with drain. -/
def pmemobj_persist (m : Mem) (addr len : Nat) : Mem :=
  pmemobj_drain (pmemobj_flush m addr len)

/-- pmemobj_memcpy_persist: copy then make the destination range durable in a
single engine-level pass (e.g. non-temporal stores): the new content is
written, every previously scheduled range is drained against it, and the
destination range is stored straight to the durable image. Returns dest. -/
def pmemobj_memcpy_persist (m : Mem) (dest src len : Nat) : Mem × Nat :=
  let c := writeRange m.content dest (readRange m.content src len)
  let d := m.pending.foldl (applyRange c) m.durable
  (⟨c, [], writeRange d dest (readRange c dest len)⟩, dest)

/-- pmemobj_memset_persist: fill then make the destination range durable in a
single engine-level pass. Returns dest. -/
def pmemobj_memset_persist (m : Mem) (dest c len : Nat) : Mem × Nat :=
  let cnew := writeRange m.content dest (List.replicate len c)
  let d := m.pending.foldl (applyRange cnew) m.durable
  (⟨cnew, [], writeRange d dest (readRange cnew dest len)⟩, dest)

/-- pool_base::persist (pool.hpp 275-279): forwards this->pop — checked
nowhere — to pmemobj_persist. On a null capability the engine faults
(modelled from the spec: an Unbound call fails, it does not silently
succeed). -/
def pool_base.persist (h : Handle) (m : Mem) (addr len : Nat) :
    Except PmemError Mem :=
  match h.pop with
  | none => .error .fault
  | some _ => .ok (pmemobj_persist m addr len)

/-- pool_base::flush (pool.hpp 312-316): forwards this->pop to
pmemobj_flush; a null capability faults in the engine. -/
def pool_base.flush (h : Handle) (m : Mem) (addr len : Nat) :
    Except PmemError Mem :=
  match h.pop with
  | none => .error .fault
  | some _ => .ok (pmemobj_flush m addr len)

/-- pool_base::drain (pool.hpp 345-349): forwards this->pop to
pmemobj_drain; a null capability faults in the engine. -/
def pool_base.drain (h : Handle) (m : Mem) : Except PmemError Mem :=
  match h.pop with
  | none => .error .fault
  | some _ => .ok (pmemobj_drain m)

/-- pool_base::memcpy_persist (pool.hpp 361-365): forwards this->pop to
pmemobj_memcpy_persist and returns its destination pointer. -/
def pool_base.memcpy_persist (h : Handle) (m : Mem) (dest src len : Nat) :
    Except PmemError (Mem × Nat) :=
  match h.pop with
  | none => .error .fault
  | some _ => .ok (pmemobj_memcpy_persist m dest src len)

/-- pool_base::memset_persist (pool.hpp 377-381): forwards this->pop to
pmemobj_memset_persist and returns its destination pointer. -/
def pool_base.memset_persist (h : Handle) (m : Mem) (dest c len : Nat) :
    Except PmemError (Mem × Nat) :=
  match h.pop with
  | none => .error .fault
  | some _ => .ok (pmemobj_memset_persist m dest c len)

/-- pobj_defrag_result: relocated-object count and total-processed count. -/
structure pobj_defrag_result where
  relocated : Nat
  total : Nat
deriving DecidableEq, Repr

/-- pool_base::defrag (pool.hpp 415-427): run the engine relocation pass and
either return its result counts or raise defrag_error carrying exactly those
partial counts. `ret` and `result` are pmemobj_defrag's status and its
out-parameter's value after the call; a null capability faults inside the
engine before any exception could be raised. -/
def pool_base.defrag (h : Handle) (ret : Int) (result : pobj_defrag_result) :
    Except PmemError pobj_defrag_result :=
  match h.pop with
  | none => .error .fault
  | some _ =>
    if ret != 0 then
      .error (.defrag_error result.relocated result.total
        "Defragmentation failed")
    else
      .ok result

/-- Modelled from the spec: the engine's tree of named configuration entry
points, at pool scope (keyed by capability) and at process-wide scope
(detail/ctl.hpp is not under src/). Entry values are numbers; a lookup that
finds no entry fails (none). -/
structure CtlTree where
  poolEntries : List (Nat × String × Nat)
  globalEntries : List (String × Nat)
deriving DecidableEq, Repr

/-- Modelled from the spec: ctl_get_detail(pop, name) resolves the name
against the pool scope of the given capability, or against the process-wide
scope when pop is null — which is exactly how the global pmem::obj::ctl_get
(pool.hpp 782-787) reaches the process-wide tree. -/
def ctl_get_detail (t : CtlTree) (pop : Option Nat) (name : String) :
    Option Nat :=
  match pop with
  | some cap =>
    (t.poolEntries.find? (fun en => en.1 == cap && en.2.1 == name)).map
      (fun en => en.2.2)
  | none => (t.globalEntries.find? (fun en => en.1 == name)).map Prod.snd

/-- pool<T>::ctl_get (pool.hpp 531-536): forwards this->pop — bound or not —
to ctl_get_detail. -/
def pool.ctl_get (h : Handle) (t : CtlTree) (name : String) : Option Nat :=
  ctl_get_detail t h.pop name

/-- pmem::obj::ctl_get at global scope (pool.hpp 782-787): passes a null
capability to ctl_get_detail. -/
def ctl_get (t : CtlTree) (name : String) : Option Nat :=
  ctl_get_detail t none name

/-- pool<T>::root (pool.hpp 636-644): throws pool_error "Invalid pool
handle" when the capability pointer is null, else returns
pmemobj_root(this->pop, sizeof(T)). The engine's root retrieval is the
abstract function engineRoot; sizeofT stands for sizeof(T). -/
def pool.root (h : Handle) (sizeofT : Nat) (engineRoot : Nat → Nat → Nat) :
    Except PmemError Nat :=
  match h.pop with
  | none => .error (.pool_error "Invalid pool handle" none)
  | some cap => .ok (engineRoot cap sizeofT)

/-- A pool file as the consistency probe sees it: its layout tag and whether
its contents are consistent. -/
structure PoolFile where
  layout : String
  consistent : Bool
deriving DecidableEq, Repr

/-- Modelled from the spec: the external engine probe pmemobj_check over a
filesystem of pool files, following the contract the source documents at
pool.hpp 161 (-1 on error, 1 if the file is consistent, 0 otherwise) and the
spec (a nonexistent path is an error; an empty layout matches any; a layout
mismatch is an error). -/
def pmemobj_check (fs : List (String × PoolFile)) (path layout : String) :
    Int :=
  match fs.find? (fun en => en.1 == path) with
  | none => -1
  | some en =>
    if layout == "" || en.2.layout == layout then
      if en.2.consistent then 1 else 0
    else -1

/-- pool_base::check (pool.hpp 163-171): a noexcept forward to
pmemobj_check. -/
def pool_base.check (fs : List (String × PoolFile)) (path layout : String) :
    Int :=
  pmemobj_check fs path layout

/-- pool<T>::check (pool.hpp 703-707): delegates to pool_base::check. -/
def pool.check (fs : List (String × PoolFile)) (path layout : String) :
    Int :=
  pool_base.check fs path layout

/-- pool_base's defaulted copy constructor and copy assignment
(pool.hpp 70-85): a member-wise copy of the raw capability pointer, with no
reference counting. -/
def pool_base.copy (h : Handle) : Handle :=
  ⟨h.pop⟩

/-- The volatile memory after memcpy's copy of len bytes from src to dest. -/
def copyContent (m : Mem) (dest src len : Nat) : Mem :=
  { m with content := writeRange m.content dest (readRange m.content src len) }

/-- The volatile memory after memset's fill of len bytes of value c at dest. -/
def fillContent (m : Mem) (dest c len : Nat) : Mem :=
  { m with content := writeRange m.content dest (List.replicate len c) }

/-- After close deletes a capability's entry, looking its User-Data Record up
finds nothing. -/
theorem getUserData_filter_self (e : Engine) (cap : Nat) :
    Engine.getUserData
      ⟨e.userData.filter (fun p => p.1 != cap),
       e.live.filter (fun c => c != cap)⟩ cap = none := by
  simp only [Engine.getUserData, Option.map_eq_none', List.find?_eq_none,
    List.mem_filter, bne_iff_ne, ne_eq, beq_iff_eq]
  intro p hp
  exact hp.2

/-- After close removes a capability from the live set, it is no longer
live. -/
theorem not_mem_live_filter (e : Engine) (cap : Nat) :
    cap ∉ e.live.filter (fun c => c != cap) := by
  simp [List.mem_filter]

/-- C1: close on a handle holding a capability with an attached User-Data
Record runs every registered cleanup action exactly once, in registration
order, if and only if the record's initialized flag is set; then it deletes
the record, then it closes the capability — so every cleanup event strictly
precedes the capability release in the event order — and clears the handle;
the resulting engine state holds no record and no live capability for the
closed pool. -/
theorem close_cleanup_sequence (e : Engine) (h : Handle) (cap : Nat)
    (ud : PoolData) (hb : h.pop = some cap)
    (hud : e.getUserData cap = some ud) :
    pool_base.close e h =
      .ok (⟨e.userData.filter (fun p => p.1 != cap),
            e.live.filter (fun c => c != cap)⟩,
        ⟨none⟩,
        (if ud.initialized then ud.to_clean.map Event.run_cleanup else []) ++
          [Event.delete_user_data, Event.pmemobj_close cap]) ∧
    Engine.getUserData
      ⟨e.userData.filter (fun p => p.1 != cap),
       e.live.filter (fun c => c != cap)⟩ cap = none ∧
    cap ∉ e.live.filter (fun c => c != cap) := by
  refine ⟨?_, getUserData_filter_self e cap, not_mem_live_filter e cap⟩
  simp [pool_base.close, hb, hud]

/-- C1 witness: a bound handle on capability 5 whose record has the
initialized flag set and cleanup actions [10, 20] registered in that order:
close runs 10 then 20, then deletes the record, then closes capability 5. -/
theorem close_cleanup_sequence_witness :
    pool_base.close ⟨[(5, ⟨true, [10, 20]⟩)], [5]⟩ ⟨some 5⟩ =
      .ok (⟨[], []⟩, ⟨none⟩,
        [Event.run_cleanup 10, Event.run_cleanup 20, Event.delete_user_data,
         Event.pmemobj_close 5]) := by
  have hmain := close_cleanup_sequence ⟨[(5, ⟨true, [10, 20]⟩)], [5]⟩
    ⟨some 5⟩ 5 ⟨true, [10, 20]⟩ rfl rfl
  simpa using hmain.1

/-- C2: close on a handle holding no capability raises the AlreadyClosed
logic error (and, returning nothing else, changes nothing); closing an
originally-bound handle twice succeeds the first time — the handle coming
back cleared — and raises AlreadyClosed the second time instead of
double-freeing. -/
theorem close_unbound_fails (e e₂ : Engine) (h : Handle) (cap : Nat)
    (ud : PoolData) (hb : h.pop = some cap)
    (hud : e.getUserData cap = some ud) :
    (∀ g : Handle, g.pop = none →
      pool_base.close e₂ g = .error (.logic_error "Pool already closed")) ∧
    ∃ e' ev, pool_base.close e h = .ok (e', ⟨none⟩, ev) ∧
      pool_base.close e₂ ⟨none⟩ =
        .error (.logic_error "Pool already closed") := by
  refine ⟨fun g hg => by simp [pool_base.close, hg],
    ⟨e.userData.filter (fun p => p.1 != cap),
     e.live.filter (fun c => c != cap)⟩,
    (if ud.initialized then ud.to_clean.map Event.run_cleanup else []) ++
      [Event.delete_user_data, Event.pmemobj_close cap], ?_, ?_⟩
  · simp [pool_base.close, hb, hud]
  · simp [pool_base.close]

/-- C2 witness: a default-constructed handle — with or without pools open
elsewhere — fails to close with the AlreadyClosed logic error. -/
theorem close_unbound_fails_witness :
    pool_base.close ⟨[], []⟩ ⟨none⟩ =
      .error (.logic_error "Pool already closed") :=
  (close_unbound_fails ⟨[(3, ⟨false, []⟩)], [3]⟩ ⟨[], []⟩ ⟨some 3⟩ 3
    ⟨false, []⟩ rfl rfl).1 ⟨none⟩ rfl

/-- C3: when the engine open/create fails, the wrapper raises
pool_invalid_argument for errno EINVAL, EFBIG, ENOENT or EEXIST and the
generic pool_error otherwise, both carrying the lower-level diagnostic
message; when the engine call succeeds, open/create associate a fresh
User-Data Record with the capability and return a bound handle. -/
theorem open_create_taxonomy (e : Engine) (en : Nat) (msg : String)
    (cap : Nat) :
    ((en = EINVAL ∨ en = EFBIG ∨ en = ENOENT ∨ en = EEXIST) →
      pool_base.open_pool e (.null en msg) =
          .error (.pool_invalid_argument "Failed opening pool" msg) ∧
        pool_base.create e (.null en msg) =
          .error (.pool_invalid_argument "Failed creating pool" msg)) ∧
    (¬(en = EINVAL ∨ en = EFBIG ∨ en = ENOENT ∨ en = EEXIST) →
      pool_base.open_pool e (.null en msg) =
          .error (.pool_error "Failed opening pool" (some msg)) ∧
        pool_base.create e (.null en msg) =
          .error (.pool_error "Failed creating pool" (some msg))) ∧
    (pool_base.open_pool e (.success cap) =
        .ok (⟨(cap, freshPoolData) :: e.userData, cap :: e.live⟩,
          ⟨some cap⟩) ∧
      pool_base.create e (.success cap) =
        .ok (⟨(cap, freshPoolData) :: e.userData, cap :: e.live⟩,
          ⟨some cap⟩) ∧
      Engine.getUserData ⟨(cap, freshPoolData) :: e.userData, cap :: e.live⟩
          cap = some freshPoolData) := by
  refine ⟨?_, ?_, rfl, rfl, by simp [Engine.getUserData]⟩
  · rintro (rfl | rfl | rfl | rfl) <;> exact ⟨rfl, rfl⟩
  · intro hn
    have hc : (en == EINVAL || en == EFBIG || en == ENOENT ||
        en == EEXIST) = false := by
      push_neg at hn
      simp only [Bool.or_eq_false_iff, beq_eq_false_iff_ne, ne_eq]
      exact ⟨⟨⟨hn.1, hn.2.1⟩, hn.2.2.1⟩, hn.2.2.2⟩
    constructor <;>
      simp [pool_base.open_pool, pool_base.create, pool_base.check_pool, hc]

/-- C4: defrag on a bound handle raises defrag_error carrying the partial
relocated/processed counts exactly when the engine relocation pass returns a
non-zero status, and returns the same counts normally on a zero status: the
count result is produced and attached in both outcomes. -/
theorem defrag_partial_result (cap : Nat) (ret : Int)
    (result : pobj_defrag_result) :
    (ret ≠ 0 →
      pool_base.defrag ⟨some cap⟩ ret result =
        .error (.defrag_error result.relocated result.total
          "Defragmentation failed")) ∧
    (ret = 0 → pool_base.defrag ⟨some cap⟩ ret result = .ok result) := by
  constructor
  · intro hr
    simp [pool_base.defrag, hr]
  · rintro rfl
    simp [pool_base.defrag]

/-- C5: root raises pool_error "Invalid pool handle" exactly when the handle
holds no capability; on a bound handle it does not fail at this layer and
returns the engine's root retrieval applied to the capability and the fixed
size sizeof(T). -/
theorem root_invalid_handle (h : Handle) (sizeofT : Nat)
    (engineRoot : Nat → Nat → Nat) :
    ((∃ err, pool.root h sizeofT engineRoot = .error err) ↔ h.pop = none) ∧
    (h.pop = none → pool.root h sizeofT engineRoot =
      .error (.pool_error "Invalid pool handle" none)) ∧
    (∀ cap, h.pop = some cap →
      pool.root h sizeofT engineRoot = .ok (engineRoot cap sizeofT)) := by
  rcases h with ⟨_ | cap⟩ <;> simp [pool.root]

/-- C6 counterexample: with one process-wide entry point present, a
default-constructed (unbound) handle's ctl_get silently succeeds — it reads
the process-wide value, exactly as the global ctl_get does — refuting the
claim that every ctl operation on an Unbound handle fails. -/
theorem ctl_unbound_silently_succeeds :
    pool.ctl_get ⟨none⟩ ⟨[], [("stats.enabled", 1)]⟩ "stats.enabled" =
        some 1 ∧
      pool.ctl_get ⟨none⟩ ⟨[], [("stats.enabled", 1)]⟩ "stats.enabled" =
        ctl_get ⟨[], [("stats.enabled", 1)]⟩ "stats.enabled" := by
  exact ⟨by decide, rfl⟩

/-- C6 amended: on a handle in the Unbound state, persist, flush, drain and
defrag fault inside the engine — they fail and do not silently succeed — but
a ctl operation is forwarded with the null capability and resolves at
process-wide scope, identically to the global ctl entry point, so it can
silently succeed. -/
theorem unbound_operations (m : Mem) (addr len : Nat) (ret : Int)
    (result : pobj_defrag_result) (t : CtlTree) (name : String) :
    pool_base.persist ⟨none⟩ m addr len = .error .fault ∧
    pool_base.flush ⟨none⟩ m addr len = .error .fault ∧
    pool_base.drain ⟨none⟩ m = .error .fault ∧
    pool_base.defrag ⟨none⟩ ret result = .error .fault ∧
    pool.ctl_get ⟨none⟩ t name = ctl_get t name :=
  ⟨rfl, rfl, rfl, rfl, rfl⟩

/-- C7: on a bound handle the durability primitives persist, flush, drain,
memcpy_persist and memset_persist have no error path: for every argument they
return normally with the engine's result. -/
theorem durability_never_fails (cap : Nat) (m : Mem)
    (addr len src c : Nat) :
    pool_base.persist ⟨some cap⟩ m addr len =
        .ok (pmemobj_persist m addr len) ∧
      pool_base.flush ⟨some cap⟩ m addr len =
        .ok (pmemobj_flush m addr len) ∧
      pool_base.drain ⟨some cap⟩ m = .ok (pmemobj_drain m) ∧
      pool_base.memcpy_persist ⟨some cap⟩ m addr src len =
        .ok (pmemobj_memcpy_persist m addr src len) ∧
      pool_base.memset_persist ⟨some cap⟩ m addr c len =
        .ok (pmemobj_memset_persist m addr c len) :=
  ⟨rfl, rfl, rfl, rfl, rfl⟩

/-- C8: check returns exactly -1 (error), 0 (inconsistent) or 1 (consistent)
— it is a total function into the integers, with no exception outcome; on a
path not present in the filesystem it returns -1; and the typed-pool wrapper
pool<T>::check agrees with pool_base::check everywhere. -/
theorem check_tristate (fs : List (String × PoolFile)) (path layout : String) :
    (pool_base.check fs path layout = -1 ∨
      pool_base.check fs path layout = 0 ∨
      pool_base.check fs path layout = 1) ∧
    (fs.find? (fun en => en.1 == path) = none →
      pool_base.check fs path layout = -1) ∧
    pool.check fs path layout = pool_base.check fs path layout := by
  refine ⟨?_, fun hn => by simp [pool_base.check, pmemobj_check, hn], rfl⟩
  simp only [pool_base.check, pmemobj_check]
  cases hf : fs.find? (fun en => en.1 == path) with
  | none => simp [hf]
  | some en =>
    simp only [hf]
    split_ifs <;> norm_num

/-- C9: on a bound handle, memcpy_persist equals the copy followed by
persist of the destination range, and memset_persist equals the fill
followed by persist of the destination range; both return the destination
address. -/
theorem memcpy_memset_persist_equiv (cap : Nat) (m : Mem)
    (dest src c len : Nat) :
    pool_base.memcpy_persist ⟨some cap⟩ m dest src len =
      (pool_base.persist ⟨some cap⟩ (copyContent m dest src len) dest
          len).map (fun mem => (mem, dest)) ∧
    pool_base.memset_persist ⟨some cap⟩ m dest c len =
      (pool_base.persist ⟨some cap⟩ (fillContent m dest c len) dest
          len).map (fun mem => (mem, dest)) := by
  constructor <;>
    simp [pool_base.memcpy_persist, pool_base.memset_persist,
      pool_base.persist, pmemobj_memcpy_persist, pmemobj_memset_persist,
      pmemobj_persist, pmemobj_drain, pmemobj_flush, copyContent,
      fillContent, applyRange, List.foldl_append, Except.map]

/-- C10: copying a handle duplicates only the raw capability pointer (no
reference counting), and close clears the pointer only in the handle it is
invoked on: after the original handle closes, the copy still holds the stale
non-null pointer, so closing the copy is not rejected with the AlreadyClosed
logic error — the double close through a copy is undetected at this layer
(in the model it is the stale-record fault, undefined behaviour in the
source). -/
theorem copy_double_close_undetected (e : Engine) (cap : Nat)
    (ud : PoolData) (hud : e.getUserData cap = some ud) :
    pool_base.copy ⟨some cap⟩ = ⟨some cap⟩ ∧
    ∃ e' ev, pool_base.close e ⟨some cap⟩ = .ok (e', ⟨none⟩, ev) ∧
      (pool_base.copy ⟨some cap⟩).pop = some cap ∧
      pool_base.close e' (pool_base.copy ⟨some cap⟩) ≠
        .error (.logic_error "Pool already closed") ∧
      pool_base.close e' (pool_base.copy ⟨some cap⟩) = .error .fault := by
  refine ⟨rfl,
    ⟨e.userData.filter (fun p => p.1 != cap),
     e.live.filter (fun c => c != cap)⟩,
    (if ud.initialized then ud.to_clean.map Event.run_cleanup else []) ++
      [Event.delete_user_data, Event.pmemobj_close cap],
    by simp [pool_base.close, hud], rfl, ?_, ?_⟩
  · simp [pool_base.close, pool_base.copy, getUserData_filter_self e cap]
  · simp [pool_base.close, pool_base.copy, getUserData_filter_self e cap]

/-- C10 witness: capability 7 with an attached record; the original handle
closes cleanly, the copy still points at 7 and its close is not the
AlreadyClosed error. -/
theorem copy_double_close_undetected_witness :
    pool_base.copy ⟨some 7⟩ = ⟨some 7⟩ ∧
    ∃ e' ev,
      pool_base.close ⟨[(7, ⟨false, []⟩)], [7]⟩ ⟨some 7⟩ =
          .ok (e', ⟨none⟩, ev) ∧
        (pool_base.copy ⟨some 7⟩).pop = some 7 ∧
        pool_base.close e' (pool_base.copy ⟨some 7⟩) ≠
          .error (.logic_error "Pool already closed") ∧
        pool_base.close e' (pool_base.copy ⟨some 7⟩) = .error .fault :=
  copy_double_close_undetected ⟨[(7, ⟨false, []⟩)], [7]⟩ 7 ⟨false, []⟩ rfl

end PmemObj
